import Mathlib

/-!
Shallow embedding of the macro86 device models (nMigen behavioural models of
classic memory-mapped ICs): the static RAM (`src/source/SRam.py`, richer
variant, and `src/source/sram.py`, simplified variant), the EEPROM-like
memory (`src/source/eeprom.py`), and the transparent latch
(`src/source/TransparentLatch.py` and `src/source/transparent_latch.py`).

Each device is embedded as an explicit state machine:
a state record (the storage cells or internal register, plus the previous
value of the clock-like control line needed for edge detection), and an
evaluation function that, given the current input port values, commits the
edge-triggered state update and produces the settled combinational output.
Signal values are natural numbers truncated to the declared port width
(`% 2 ^ width`), mirroring nMigen's width-limited `Signal`s.
-/

/-! ### List helper lemmas (cell array indexing) -/

theorem listGetD_set_self (l : List Nat) (n : Nat) (a d : Nat) (h : n < l.length) :
    (l.set n a).getD n d = a := by
  induction l generalizing n with
  | nil => simp at h
  | cons x xs ih =>
    cases n with
    | zero => simp [List.set, List.getD]
    | succ m =>
      simp only [List.set, List.getD_cons_succ]
      exact ih m (by simpa using h)

theorem listGetD_set_ne (l : List Nat) (m n : Nat) (a d : Nat) (hmn : m ≠ n) :
    (l.set n a).getD m d = l.getD m d := by
  induction l generalizing m n with
  | nil => simp [List.set]
  | cons x xs ih =>
    cases n with
    | zero =>
      cases m with
      | zero => exact absurd rfl hmn
      | succ k => simp [List.set, List.getD_cons_succ]
    | succ n' =>
      cases m with
      | zero => simp [List.set, List.getD_cons_zero]
      | succ k =>
        simp only [List.set, List.getD_cons_succ]
        exact ih k n' (fun h => hmn (by rw [h]))

theorem listGetD_replicate_zero (k n : Nat) :
    (List.replicate k 0).getD n 0 = 0 := by
  induction k generalizing n with
  | zero => simp [List.getD]
  | succ k ih =>
    cases n with
    | zero => simp [List.replicate, List.getD_cons_zero]
    | succ m => simp [List.replicate, List.getD_cons_succ, ih m]

theorem listGetD_set_self_zero (l : List Nat) (n : Nat) (h : l.getD n 0 = 0) :
    (l.set n 0).getD n 0 = 0 := by
  by_cases hn : n < l.length
  · exact listGetD_set_self l n 0 0 hn
  · rw [List.set_eq_of_length_le (Nat.le_of_not_lt hn)]
    exact h

/-! ### The static RAM model — `src/source/SRam.py`, class `SRam`

Ports (`__init__`, lines 54-58): `addr` (`addr_bits` wide), `data_in` and
`data_out` (`data_bits` wide), `_oe` and `_we` (1 bit each, active low).
Storage (`__init__`, lines 62-64): `__mem`, an array of `2 ** addr_bits`
signals of `data_bits` bits; every nMigen `Signal` starts at its reset
value, here 0.

`elaborate` (lines 66-82):
- a local clock domain `we_clk` clocked by `_we` on the positive edge
  (lines 70-72), driving `__mem[addr] := data_in` (line 80): the cell
  addressed at the instant `_we` rises 0→1 takes the value of `data_in`
  at that instant;
- combinationally, `data_out = __mem[addr]` when `~_oe & _we`, else 0
  (lines 75-77).

The embedding keeps the previous value of the `_we` line in the state for
edge detection, and the evaluation of one settle step commits the edge
update first and then reads the combinational output from the settled
register values. -/

namespace SRam

/-- Input port values for one evaluation: `addr`, `data_in`, `_oe`, `_we`.
The 1-bit enables are booleans (`true` = logic 1). -/
structure Input where
  addr : Nat
  data_in : Nat
  oe_n : Bool
  we_n : Bool
deriving DecidableEq, Repr

/-- Device state: the cell array `__mem` and the previous value of the
`_we` line (the `we_clk` clock), needed to detect its positive edge. -/
structure State where
  mem : List Nat
  prevWE : Bool
deriving DecidableEq, Repr

/-- State at power-on: all `2 ^ addr_bits` cell signals at their reset
value 0 (`__init__` lines 62-64), the `_we` signal at its reset value 0. -/
def initState (data_bits addr_bits : Nat) : State :=
  ⟨List.replicate (2 ^ addr_bits) 0, false⟩

/-- A positive edge of the `we_clk` clock: `_we` was 0 and is now 1. -/
def writeEdge (s : State) (i : Input) : Bool :=
  !s.prevWE && i.we_n

/-- One settle step: commit the `we_clk`-domain assignment
`__mem[addr] := data_in` exactly when `_we` rises (line 80), then read the
combinational output `data_out = __mem[addr]` if `~_oe & _we` else 0
(lines 75-77) from the settled cells. Port values are truncated to their
declared widths. Returns the new state and the settled `data_out`. -/
def evalStep (data_bits addr_bits : Nat) (s : State) (i : Input) : State × Nat :=
  let a := i.addr % 2 ^ addr_bits
  let mem' := if writeEdge s i then s.mem.set a (i.data_in % 2 ^ data_bits) else s.mem
  let out := if !i.oe_n && i.we_n then mem'.getD a 0 else 0
  (⟨mem', i.we_n⟩, out)

/-- Drive a sequence of input valuations, one settle step each, collecting
the settled outputs. -/
def runFrom (data_bits addr_bits : Nat) (s : State) : List Input → State × List Nat
  | [] => (s, [])
  | i :: is =>
    let r := evalStep data_bits addr_bits s i
    let rest := runFrom data_bits addr_bits r.1 is
    (rest.1, r.2 :: rest.2)

/-- The constructed device (`__init__`): the declared widths and the cell
array. Construction (`SRam.__init__`, lines 50-52) asserts
`data_bits > 0`, `addr_bits > 0` and `addr_bits <= 32` before creating any
port or storage; a failed assert aborts construction, so `none` models the
absence of any partially constructed device. -/
structure Device where
  data_bits : Int
  addr_bits : Int
  cells : List Nat
deriving DecidableEq, Repr

/-- `SRam(data_bits, addr_bits)`: the asserts of lines 50-52, then the
ports and the `2 ** addr_bits` zero-reset cell signals. -/
def construct (data_bits addr_bits : Int) : Option Device :=
  if 0 < data_bits ∧ 0 < addr_bits ∧ addr_bits ≤ 32 then
    some ⟨data_bits, addr_bits, List.replicate (2 ^ addr_bits.toNat) 0⟩
  else
    none

end SRam

/-! ### The EEPROM-like model — `src/source/eeprom.py`, class `EEProm`

Identical structure to `SRam` (its `elaborate`, lines 64-80 of eeprom.py,
performs the same three assignments), differing only in port names:
`a` / `io_in` / `io_out` instead of `addr` / `data_in` / `data_out`. -/

namespace EEProm

/-- Input port values: `a`, `io_in`, `_oe`, `_we`. -/
structure Input where
  a : Nat
  io_in : Nat
  oe_n : Bool
  we_n : Bool
deriving DecidableEq, Repr

/-- Device state: the cell array `__mem` and the previous `_we` value. -/
structure State where
  mem : List Nat
  prevWE : Bool
deriving DecidableEq, Repr

/-- Power-on state (`__init__` lines 60-62 of eeprom.py): `2 ^ addr_bits`
cells at reset value 0, `_we` at 0. -/
def initState (data_bits addr_bits : Nat) : State :=
  ⟨List.replicate (2 ^ addr_bits) 0, false⟩

/-- Positive edge of the `we_clk` clock (eeprom.py lines 67-69). -/
def writeEdge (s : State) (i : Input) : Bool :=
  !s.prevWE && i.we_n

/-- One settle step of `EEProm.elaborate`: on a `_we` rising edge commit
`__mem[a] := io_in` (line 78), then `io_out = __mem[a]` if `~_oe & _we`
else 0 (lines 72-75). -/
def evalStep (data_bits addr_bits : Nat) (s : State) (i : Input) : State × Nat :=
  let a := i.a % 2 ^ addr_bits
  let mem' := if writeEdge s i then s.mem.set a (i.io_in % 2 ^ data_bits) else s.mem
  let out := if !i.oe_n && i.we_n then mem'.getD a 0 else 0
  (⟨mem', i.we_n⟩, out)

/-- Drive a sequence of input valuations, collecting outputs. -/
def runFrom (data_bits addr_bits : Nat) (s : State) : List Input → State × List Nat
  | [] => (s, [])
  | i :: is =>
    let r := evalStep data_bits addr_bits s i
    let rest := runFrom data_bits addr_bits r.1 is
    (rest.1, r.2 :: rest.2)

/-- The constructed device; `EEProm.__init__` (eeprom.py lines 43-57)
asserts `data_bits > 0`, `addr_bits > 0`, `addr_bits <= 32` before
creating ports or storage. -/
structure Device where
  io_bits : Int
  a_bits : Int
  cells : List Nat
deriving DecidableEq, Repr

/-- `EEProm(data_bits, addr_bits)`. -/
def construct (data_bits addr_bits : Int) : Option Device :=
  if 0 < data_bits ∧ 0 < addr_bits ∧ addr_bits ≤ 32 then
    some ⟨data_bits, addr_bits, List.replicate (2 ^ addr_bits.toNat) 0⟩
  else
    none

end EEProm

/-! ### The simplified static RAM — `src/source/sram.py`, class `SRam`

Its `elaborate` (sram.py lines 66-82) is textually identical to the richer
variant's; only the construction ceiling differs: `assert addr_bits <= 16`
(line 52) instead of `<= 32`. We embed its constructor and its `formal`
classmethod. -/

namespace SRamSimple

/-- `SRam(data_bits, addr_bits)` of sram.py: asserts of lines 50-52
(`data_bits > 0`, `addr_bits > 0`, `addr_bits <= 16`) before any port or
storage is created. -/
def construct (data_bits addr_bits : Int) : Option SRam.Device :=
  if 0 < data_bits ∧ 0 < addr_bits ∧ addr_bits ≤ 16 then
    some ⟨data_bits, addr_bits, List.replicate (2 ^ addr_bits.toNat) 0⟩
  else
    none

end SRamSimple

/-! ### The transparent latch — `src/source/TransparentLatch.py`, class
`TransparentLatch` (identical `elaborate` in `src/source/transparent_latch.py`)

Ports (`__init__`, lines 48-51): `d` and `q` (`bits` wide), `le` and `_oe`
(1 bit). `elaborate` (lines 54-69):
- `internal_reg`, a `bits`-wide signal with reset value 0 (line 57);
- a local clock domain `le_clk` clocked by `le` on the NEGATIVE edge
  (lines 60-62), driving `internal_reg := d` (line 64): the register
  captures `d` at the instant `le` falls 1→0;
- combinationally `q = Mux(_oe, 0, internal_reg)` (line 65), overridden to
  `q = d` when `le & ~_oe` (lines 66-67): so `q = 0` if `_oe = 1`, else
  `q = d` if `le = 1`, else `q = internal_reg`. -/

namespace TransparentLatch

/-- Input port values: `d`, `le`, `_oe`. -/
structure Input where
  d : Nat
  le : Bool
  oe_n : Bool
deriving DecidableEq, Repr

/-- Device state: `internal_reg` and the previous value of the `le` line
(the `le_clk` clock), needed to detect its negative edge. -/
structure State where
  reg : Nat
  prevLE : Bool
deriving DecidableEq, Repr

/-- Power-on state: `internal_reg` at its reset value 0 (line 57), the
`le` signal at its reset value 0. -/
def initState : State :=
  ⟨0, false⟩

/-- A negative edge of the `le_clk` clock: `le` was 1 and is now 0. -/
def fallEdge (s : State) (i : Input) : Bool :=
  s.prevLE && !i.le

/-- One settle step of `TransparentLatch.elaborate`: on a falling edge of
`le` commit `internal_reg := d` (line 64), then read the combinational
`q` (lines 65-67) from the settled register. `d` is truncated to the
declared width. Returns the new state and the settled `q`. -/
def evalStep (bits : Nat) (s : State) (i : Input) : State × Nat :=
  let reg' := if fallEdge s i then i.d % 2 ^ bits else s.reg
  let q0 := if i.oe_n then 0 else reg'
  let q := if i.le && !i.oe_n then i.d % 2 ^ bits else q0
  (⟨reg', i.le⟩, q)

/-- Drive a sequence of input valuations, collecting the settled `q`s. -/
def runFrom (bits : Nat) (s : State) : List Input → State × List Nat
  | [] => (s, [])
  | i :: is =>
    let r := evalStep bits s i
    let rest := runFrom bits r.1 is
    (rest.1, r.2 :: rest.2)

/-- The constructed latch: `TransparentLatch.__init__` (lines 39-52 of
both latch files) asserts `bits > 0` before creating any port. -/
structure Device where
  bits : Int
deriving DecidableEq, Repr

/-- `TransparentLatch(bits)`. -/
def construct (bits : Int) : Option Device :=
  if 0 < bits then some ⟨bits⟩ else none

end TransparentLatch

/-! ### The formal-verification entry points

Python `assert False` raises `AssertionError` — a deliberate, immediate
failure. `SRam.formal` of `src/source/SRam.py` (lines 156-164) instead
executes `rom = EEProm(16, 4)`, but the name `EEProm` is never imported in
SRam.py (its imports, lines 11-16, bring in only typing, nmigen and util),
so the call raises `NameError` before reaching its `return`; the body is
marked `# TODO: Formally verify` and contains no assertion either way. -/

/-- The ways a `formal` classmethod can terminate in the source. -/
inductive FormalOutcome where
  /-- `assert False`: a deliberate AssertionError. -/
  | assertionError : FormalOutcome
  /-- Evaluation of a name that is not bound in the module: NameError. -/
  | nameError : FormalOutcome
  /-- Returns a (module, ports) pair normally. -/
  | returnsModule : FormalOutcome
deriving DecidableEq, Repr

/-- `EEProm.formal` (eeprom.py lines 322-324): `assert False`. -/
def EEProm.formalOutcome : FormalOutcome :=
  FormalOutcome.assertionError

/-- `SRam.formal` of sram.py (lines 151-153): `assert False`. -/
def SRamSimple.formalOutcome : FormalOutcome :=
  FormalOutcome.assertionError

/-- `TransparentLatch.formal` of transparent_latch.py (lines 76-78):
`assert False`. -/
def TransparentLatchSimple.formalOutcome : FormalOutcome :=
  FormalOutcome.assertionError

/-- `SRam.formal` of SRam.py (lines 156-164): its first statement after
`m = Module()` is `rom = EEProm(16, 4)`, and `EEProm` is unbound in
SRam.py's module namespace, so the call raises NameError. -/
def SRam.formalOutcome : FormalOutcome :=
  FormalOutcome.nameError

/-! ### Step-shape lemmas -/

theorem SRam.evalStep_fst (db ab : Nat) (s : State) (i : Input) :
    (evalStep db ab s i).1 =
      ⟨if writeEdge s i then s.mem.set (i.addr % 2 ^ ab) (i.data_in % 2 ^ db) else s.mem,
       i.we_n⟩ :=
  rfl

theorem SRam.evalStep_snd (db ab : Nat) (s : State) (i : Input) :
    (evalStep db ab s i).2 =
      if !i.oe_n && i.we_n then
        (if writeEdge s i then s.mem.set (i.addr % 2 ^ ab) (i.data_in % 2 ^ db)
         else s.mem).getD (i.addr % 2 ^ ab) 0
      else 0 :=
  rfl

theorem EEProm.evalStep_fst_ee (db ab : Nat) (s : State) (i : Input) :
    (evalStep db ab s i).1 =
      ⟨if writeEdge s i then s.mem.set (i.a % 2 ^ ab) (i.io_in % 2 ^ db) else s.mem,
       i.we_n⟩ :=
  rfl

theorem EEProm.evalStep_snd_ee (db ab : Nat) (s : State) (i : Input) :
    (evalStep db ab s i).2 =
      if !i.oe_n && i.we_n then
        (if writeEdge s i then s.mem.set (i.a % 2 ^ ab) (i.io_in % 2 ^ db)
         else s.mem).getD (i.a % 2 ^ ab) 0
      else 0 :=
  rfl

/-! ### Claims -/

/-- Claim C1: for every address `a` and data value `v` within the declared
widths, driving the memory device with `write_enable_n` transitioning 0 to 1
while `address = a` and `data_in = v` (here: one settle step with `_we = 1`
from a state whose `_we` line was 0, any `_oe`), and then evaluating with
`address = a`, `output_enable_n = 0` and `write_enable_n = 1` (any
`data_in`), makes `data_out` equal exactly `v` — for the SRam model and for
the EEProm model. -/
theorem sram_eeprom_write_then_read_roundtrip
    (db ab a v v1 v2 : Nat) (oe1 oe2 : Bool) (s : SRam.State) (t : EEProm.State)
    (hs : s.prevWE = false) (hslen : s.mem.length = 2 ^ ab)
    (ht : t.prevWE = false) (htlen : t.mem.length = 2 ^ ab)
    (ha : a < 2 ^ ab) (hv : v < 2 ^ db) :
    (SRam.evalStep db ab (SRam.evalStep db ab s ⟨a, v, oe1, true⟩).1 ⟨a, v1, false, true⟩).2
      = v ∧
    (EEProm.evalStep db ab (EEProm.evalStep db ab t ⟨a, v, oe2, true⟩).1 ⟨a, v2, false, true⟩).2
      = v := by
  constructor
  · rw [SRam.evalStep_fst, SRam.evalStep_snd]
    simp only [SRam.writeEdge, hs, Bool.not_false, Bool.and_true, Bool.not_true,
      Bool.false_and, Bool.and_self, if_true, if_false, ite_true, ite_false]
    rw [Nat.mod_eq_of_lt ha, Nat.mod_eq_of_lt hv]
    exact listGetD_set_self s.mem a v 0 (hslen ▸ ha)
  · rw [EEProm.evalStep_fst_ee, EEProm.evalStep_snd_ee]
    simp only [EEProm.writeEdge, ht, Bool.not_false, Bool.and_true, Bool.not_true,
      Bool.false_and, Bool.and_self, if_true, if_false, ite_true, ite_false]
    rw [Nat.mod_eq_of_lt ha, Nat.mod_eq_of_lt hv]
    exact listGetD_set_self t.mem a v 0 (htlen ▸ ha)

/-- Witness for C1 at concrete inputs: a 16-bit-data, 4-bit-address device
from power-on, write `0x1111` at address 3, read it back. -/
theorem sram_eeprom_write_then_read_roundtrip_witness :
    (SRam.initState 16 4).prevWE = false ∧
    (SRam.initState 16 4).mem.length = 2 ^ 4 ∧
    3 < 2 ^ 4 ∧ 0x1111 < 2 ^ 16 ∧
    (SRam.evalStep 16 4 (SRam.evalStep 16 4 (SRam.initState 16 4) ⟨3, 0x1111, true, true⟩).1
        ⟨3, 0, false, true⟩).2 = 0x1111 := by
  refine ⟨rfl, rfl, by decide, by decide, ?_⟩
  exact (sram_eeprom_write_then_read_roundtrip 16 4 3 0x1111 0 0 true true
    (SRam.initState 16 4) (EEProm.initState 16 4) rfl rfl rfl rfl
    (by decide) (by decide)).1

/-- Claim C2: for every state of the memory device and every input
combination, the settled output is: the addressed cell's settled value
exactly when `output_enable_n = 0` and `write_enable_n = 1` (on the step
whose `_we` line rises 0→1 that settled value is the just-committed
`data_in`; on any other read step it is the stored cell), and the all-zero
pattern in every other case — in particular whenever `write_enable_n = 0`
or `output_enable_n = 1`, regardless of address or stored contents. Stated
for the SRam model and the EEProm model. -/
theorem sram_eeprom_output_gating
    (db ab : Nat) (s : SRam.State) (i : SRam.Input) (t : EEProm.State) (j : EEProm.Input)
    (hs : s.mem.length = 2 ^ ab) (ht : t.mem.length = 2 ^ ab) :
    ((SRam.evalStep db ab s i).2 =
      if i.oe_n = false ∧ i.we_n = true then
        (if s.prevWE = false then i.data_in % 2 ^ db
         else s.mem.getD (i.addr % 2 ^ ab) 0)
      else 0) ∧
    ((EEProm.evalStep db ab t j).2 =
      if j.oe_n = false ∧ j.we_n = true then
        (if t.prevWE = false then j.io_in % 2 ^ db
         else t.mem.getD (j.a % 2 ^ ab) 0)
      else 0) := by
  have hpow : 0 < 2 ^ ab := Nat.pos_pow_of_pos ab (by decide)
  constructor
  · obtain ⟨ia, idn, ioe, iwe⟩ := i
    obtain ⟨mem, pwe⟩ := s
    cases ioe <;> cases iwe <;> cases pwe <;>
      first
        | rfl
        | exact listGetD_set_self mem (ia % 2 ^ ab) (idn % 2 ^ db) 0
            (by rw [hs]; exact Nat.mod_lt _ hpow)
  · obtain ⟨ja, jin, joe, jwe⟩ := j
    obtain ⟨mem, pwe⟩ := t
    cases joe <;> cases jwe <;> cases pwe <;>
      first
        | rfl
        | exact listGetD_set_self mem (ja % 2 ^ ab) (jin % 2 ^ db) 0
            (by rw [ht]; exact Nat.mod_lt _ hpow)

/-- Witness for C2 at concrete inputs: from power-on of a 16-bit-data,
4-bit-address device, a read step (`_oe = 0`, `_we = 1`) and, for the
EEProm, a step with `_we = 0`. -/
theorem sram_eeprom_output_gating_witness :
    (SRam.initState 16 4).mem.length = 2 ^ 4 ∧
    (EEProm.initState 16 4).mem.length = 2 ^ 4 ∧
    ((SRam.evalStep 16 4 (SRam.initState 16 4) ⟨3, 7, false, true⟩).2 =
      if (false : Bool) = false ∧ (true : Bool) = true then
        (if (SRam.initState 16 4).prevWE = false then 7 % 2 ^ 16
         else (SRam.initState 16 4).mem.getD (3 % 2 ^ 4) 0)
      else 0) ∧
    ((EEProm.evalStep 16 4 (EEProm.initState 16 4) ⟨2, 5, false, false⟩).2 =
      if (false : Bool) = false ∧ (false : Bool) = true then
        (if (EEProm.initState 16 4).prevWE = false then 5 % 2 ^ 16
         else (EEProm.initState 16 4).mem.getD (2 % 2 ^ 4) 0)
      else 0) := by
  refine ⟨rfl, rfl, ?_, ?_⟩
  · exact (sram_eeprom_output_gating 16 4 (SRam.initState 16 4) ⟨3, 7, false, true⟩
      (EEProm.initState 16 4) ⟨2, 5, false, false⟩ rfl rfl).1
  · exact (sram_eeprom_output_gating 16 4 (SRam.initState 16 4) ⟨3, 7, false, true⟩
      (EEProm.initState 16 4) ⟨2, 5, false, false⟩ rfl rfl).2

/-- Holding the `_we` line at a constant level (no 0→1 transition) across
any number of settle steps with unchanged inputs leaves the SRam cells
untouched. -/
theorem SRam.mem_const_level (db ab : Nat) (i : Input) (n : Nat) :
    ∀ s : State, s.prevWE = i.we_n →
      (runFrom db ab s (List.replicate n i)).1.mem = s.mem := by
  induction n with
  | zero => intro s _; rfl
  | succ n ih =>
    intro s hpe
    have hmem : (evalStep db ab s i).1.mem = s.mem := by
      cases hwe : i.we_n <;>
        simp [evalStep, writeEdge, hpe, hwe]
    rw [List.replicate_succ]
    show (runFrom db ab (evalStep db ab s i).1 (List.replicate n i)).1.mem = s.mem
    rw [ih _ rfl, hmem]

/-- Same constant-level lemma for the EEProm cells. -/
theorem EEProm.mem_const_level_ee (db ab : Nat) (i : Input) (n : Nat) :
    ∀ s : State, s.prevWE = i.we_n →
      (runFrom db ab s (List.replicate n i)).1.mem = s.mem := by
  induction n with
  | zero => intro s _; rfl
  | succ n ih =>
    intro s hpe
    have hmem : (evalStep db ab s i).1.mem = s.mem := by
      cases hwe : i.we_n <;>
        simp [evalStep, writeEdge, hpe, hwe]
    rw [List.replicate_succ]
    show (runFrom db ab (evalStep db ab s i).1 (List.replicate n i)).1.mem = s.mem
    rw [ih _ rfl, hmem]

/-- Claim C3: the storage commits exactly once per 0→1 transition of
`write_enable_n`: on such a transition the addressed cell takes the
`data_in` value sampled at that instant; on any step without that
transition no cell changes; and holding the line at a constant level
across many steps (same inputs replicated) changes nothing. Stated for
the SRam model and the EEProm model. -/
theorem sram_eeprom_commit_once_per_rising_edge
    (db ab n : Nat) (s : SRam.State) (i : SRam.Input) (t : EEProm.State) (j : EEProm.Input) :
    (s.prevWE = false → i.we_n = true →
      (SRam.evalStep db ab s i).1.mem
        = s.mem.set (i.addr % 2 ^ ab) (i.data_in % 2 ^ db)) ∧
    (s.prevWE = true ∨ i.we_n = false → (SRam.evalStep db ab s i).1.mem = s.mem) ∧
    (s.prevWE = i.we_n →
      (SRam.runFrom db ab s (List.replicate n i)).1.mem = s.mem) ∧
    (t.prevWE = false → j.we_n = true →
      (EEProm.evalStep db ab t j).1.mem
        = t.mem.set (j.a % 2 ^ ab) (j.io_in % 2 ^ db)) ∧
    (t.prevWE = true ∨ j.we_n = false → (EEProm.evalStep db ab t j).1.mem = t.mem) ∧
    (t.prevWE = j.we_n →
      (EEProm.runFrom db ab t (List.replicate n j)).1.mem = t.mem) := by
  refine ⟨?_, ?_, ?_, ?_, ?_, ?_⟩
  · intro h1 h2
    simp [SRam.evalStep, SRam.writeEdge, h1, h2]
  · intro h
    rcases h with h | h <;> simp [SRam.evalStep, SRam.writeEdge, h]
  · exact SRam.mem_const_level db ab i n s
  · intro h1 h2
    simp [EEProm.evalStep, EEProm.writeEdge, h1, h2]
  · intro h
    rcases h with h | h <;> simp [EEProm.evalStep, EEProm.writeEdge, h]
  · exact EEProm.mem_const_level_ee db ab j n t

/-- Witness for C3 at concrete inputs: a 16-bit-data, 4-bit-address device
from power-on, write strobe at address 3, then the line held high for 5
steps. -/
theorem sram_eeprom_commit_once_per_rising_edge_witness :
    (SRam.initState 16 4).prevWE = false ∧
    ((true : Bool) = true) ∧
    ((SRam.initState 16 4).prevWE = true ∨ (false : Bool) = false) ∧
    (SRam.evalStep 16 4 (SRam.initState 16 4) ⟨3, 0x1111, true, true⟩).1.mem
      = (SRam.initState 16 4).mem.set (3 % 2 ^ 4) (0x1111 % 2 ^ 16) ∧
    (EEProm.evalStep 16 4 (EEProm.initState 16 4) ⟨3, 0x2222, true, false⟩).1.mem
      = (EEProm.initState 16 4).mem ∧
    (EEProm.runFrom 16 4 (EEProm.initState 16 4)
        (List.replicate 5 ⟨3, 0x2222, true, false⟩)).1.mem
      = (EEProm.initState 16 4).mem := by
  refine ⟨rfl, rfl, Or.inr rfl, ?_, ?_, ?_⟩
  · exact (sram_eeprom_commit_once_per_rising_edge 16 4 5 (SRam.initState 16 4)
      ⟨3, 0x1111, true, true⟩ (EEProm.initState 16 4) ⟨3, 0x2222, true, false⟩).1 rfl rfl
  · exact (sram_eeprom_commit_once_per_rising_edge 16 4 5 (SRam.initState 16 4)
      ⟨3, 0x1111, true, true⟩ (EEProm.initState 16 4)
      ⟨3, 0x2222, true, false⟩).2.2.2.2.1 (Or.inr rfl)
  · exact (sram_eeprom_commit_once_per_rising_edge 16 4 5 (SRam.initState 16 4)
      ⟨3, 0x1111, true, true⟩ (EEProm.initState 16 4)
      ⟨3, 0x2222, true, false⟩).2.2.2.2.2 rfl

/-- Claim C4: a write committed at address `a` (a 0→1 transition of
`write_enable_n` while `address = a`) leaves the stored value of every
other cell `b ≠ a` unchanged — indeed no settle step, edge or not, touches
a cell other than the currently addressed one. Stated for the SRam model
and the EEProm model. -/
theorem sram_eeprom_write_frame
    (db ab b : Nat) (s : SRam.State) (i : SRam.Input) (t : EEProm.State) (j : EEProm.Input)
    (hse : s.prevWE = false) (hie : i.we_n = true)
    (hte : t.prevWE = false) (hje : j.we_n = true)
    (hb : b % 2 ^ ab ≠ i.addr % 2 ^ ab) (hb2 : b % 2 ^ ab ≠ j.a % 2 ^ ab) :
    (SRam.evalStep db ab s i).1.mem.getD (b % 2 ^ ab) 0
      = s.mem.getD (b % 2 ^ ab) 0 ∧
    (EEProm.evalStep db ab t j).1.mem.getD (b % 2 ^ ab) 0
      = t.mem.getD (b % 2 ^ ab) 0 := by
  constructor
  · have h1 : (SRam.evalStep db ab s i).1.mem =
        if SRam.writeEdge s i then s.mem.set (i.addr % 2 ^ ab) (i.data_in % 2 ^ db)
        else s.mem := rfl
    rw [h1]
    cases hE : SRam.writeEdge s i
    · rfl
    · exact listGetD_set_ne s.mem (b % 2 ^ ab) (i.addr % 2 ^ ab) (i.data_in % 2 ^ db) 0 hb
  · have h1 : (EEProm.evalStep db ab t j).1.mem =
        if EEProm.writeEdge t j then t.mem.set (j.a % 2 ^ ab) (j.io_in % 2 ^ db)
        else t.mem := rfl
    rw [h1]
    cases hE : EEProm.writeEdge t j
    · rfl
    · exact listGetD_set_ne t.mem (b % 2 ^ ab) (j.a % 2 ^ ab) (j.io_in % 2 ^ db) 0 hb2

/-- Witness for C4 at concrete inputs: writing at address 3 leaves cell 9
of a 16-bit-data, 4-bit-address device unchanged. -/
theorem sram_eeprom_write_frame_witness :
    (SRam.initState 16 4).prevWE = false ∧
    (EEProm.initState 16 4).prevWE = false ∧
    9 % 2 ^ 4 ≠ 3 % 2 ^ 4 ∧
    (SRam.evalStep 16 4 (SRam.initState 16 4) ⟨3, 0x1111, true, true⟩).1.mem.getD (9 % 2 ^ 4) 0
      = (SRam.initState 16 4).mem.getD (9 % 2 ^ 4) 0 ∧
    (EEProm.evalStep 16 4 (EEProm.initState 16 4) ⟨3, 0x2222, true, true⟩).1.mem.getD (9 % 2 ^ 4) 0
      = (EEProm.initState 16 4).mem.getD (9 % 2 ^ 4) 0 := by
  refine ⟨rfl, rfl, by decide, ?_, ?_⟩
  · exact (sram_eeprom_write_frame 16 4 9 (SRam.initState 16 4) ⟨3, 0x1111, true, true⟩
      (EEProm.initState 16 4) ⟨3, 0x2222, true, true⟩ rfl rfl rfl rfl
      (by decide) (by decide)).1
  · exact (sram_eeprom_write_frame 16 4 9 (SRam.initState 16 4) ⟨3, 0x1111, true, true⟩
      (EEProm.initState 16 4) ⟨3, 0x2222, true, true⟩ rfl rfl rfl rfl
      (by decide) (by decide)).2

/-- Claim C5: for every latch state and input combination the settled `q`
is 0 whenever `output_enable_n = 1` (overriding everything), equals `d`
(same instant, no lag) whenever `output_enable_n = 0` and
`latch_enable = 1`, and equals the internal register whenever
`output_enable_n = 0` and `latch_enable = 0` — both as the settled
register of the same step and, unfolded to pre-state terms, the freshly
captured `d` on a falling-edge step and the held register otherwise. -/
theorem latch_output_cases (bits : Nat) (s : TransparentLatch.State) (i : TransparentLatch.Input) :
    ((TransparentLatch.evalStep bits s i).2 =
      if i.oe_n = true then 0
      else if i.le = true then i.d % 2 ^ bits
      else (TransparentLatch.evalStep bits s i).1.reg) ∧
    ((TransparentLatch.evalStep bits s i).2 =
      if i.oe_n = true then 0
      else if i.le = true then i.d % 2 ^ bits
      else if s.prevLE = true then i.d % 2 ^ bits else s.reg) := by
  obtain ⟨d, le, oe⟩ := i
  obtain ⟨reg, ple⟩ := s
  cases oe <;> cases le <;> cases ple <;> exact ⟨rfl, rfl⟩

/-- Holding `latch_enable` at a constant level (no 1→0 transition) across
any number of settle steps with unchanged inputs leaves the latch's
internal register untouched. -/
theorem TransparentLatch.reg_const_level (bits : Nat) (i : Input) (n : Nat) :
    ∀ s : State, s.prevLE = i.le →
      (runFrom bits s (List.replicate n i)).1.reg = s.reg := by
  induction n with
  | zero => intro s _; rfl
  | succ n ih =>
    intro s hpe
    have hreg : (evalStep bits s i).1.reg = s.reg := by
      cases hle : i.le <;>
        simp [evalStep, fallEdge, hpe, hle]
    rw [List.replicate_succ]
    show (runFrom bits (evalStep bits s i).1 (List.replicate n i)).1.reg = s.reg
    rw [ih _ rfl, hreg]

/-- Claim C6: the latch's internal register starts at zero (and the
initial latch state is holding, `le` low); it takes the current `d`
exactly on 1→0 transitions of `latch_enable`; the state update is
independent of `output_enable_n`; on any step without a 1→0 transition
the register keeps its value, including across many steps at a constant
level. -/
theorem latch_register_capture
    (bits n : Nat) (s : TransparentLatch.State) (i : TransparentLatch.Input) :
    TransparentLatch.initState.reg = 0 ∧
    TransparentLatch.initState.prevLE = false ∧
    (s.prevLE = true → i.le = false →
      (TransparentLatch.evalStep bits s i).1.reg = i.d % 2 ^ bits) ∧
    (∀ oe1 oe2 : Bool,
      (TransparentLatch.evalStep bits s ⟨i.d, i.le, oe1⟩).1
        = (TransparentLatch.evalStep bits s ⟨i.d, i.le, oe2⟩).1) ∧
    ((s.prevLE = false ∨ i.le = true) →
      (TransparentLatch.evalStep bits s i).1.reg = s.reg) ∧
    (s.prevLE = i.le →
      (TransparentLatch.runFrom bits s (List.replicate n i)).1.reg = s.reg) := by
  refine ⟨rfl, rfl, ?_, ?_, ?_, ?_⟩
  · intro h1 h2
    simp [TransparentLatch.evalStep, TransparentLatch.fallEdge, h1, h2]
  · intro oe1 oe2
    rfl
  · intro h
    rcases h with h | h <;> simp [TransparentLatch.evalStep, TransparentLatch.fallEdge, h]
  · exact TransparentLatch.reg_const_level bits i n s

/-- Witness for C6 at concrete inputs: a 16-bit latch captures `0x5678` on
the falling edge of `le`, and holds its register across 5 steps with `le`
kept low. -/
theorem latch_register_capture_witness :
    (⟨0, true⟩ : TransparentLatch.State).prevLE = true ∧
    ((false : Bool) = false) ∧
    ((⟨0x5678, true⟩ : TransparentLatch.State).prevLE = false ∨ (true : Bool) = true) ∧
    (TransparentLatch.evalStep 16 ⟨0, true⟩ ⟨0x5678, false, true⟩).1.reg = 0x5678 % 2 ^ 16 ∧
    (TransparentLatch.evalStep 16 ⟨0x5678, true⟩ ⟨0x1234, true, false⟩).1.reg
      = (⟨0x5678, true⟩ : TransparentLatch.State).reg ∧
    (TransparentLatch.runFrom 16 ⟨0x5678, false⟩
        (List.replicate 5 ⟨0x1234, false, false⟩)).1.reg
      = (⟨0x5678, false⟩ : TransparentLatch.State).reg := by
  refine ⟨rfl, rfl, Or.inr rfl, ?_, ?_, ?_⟩
  · exact (latch_register_capture 16 5 ⟨0, true⟩ ⟨0x5678, false, true⟩).2.2.1 rfl rfl
  · exact (latch_register_capture 16 5 ⟨0x5678, true⟩ ⟨0x1234, true, false⟩).2.2.2.2.1
      (Or.inr rfl)
  · exact (latch_register_capture 16 5 ⟨0x5678, false⟩ ⟨0x1234, false, false⟩).2.2.2.2.2 rfl

/-- Renaming of the SRam port valuation into the EEProm port naming:
`addr`/`data_in` become `a`/`io_in`; the enables are shared. -/
def EEProm.inputOfSRam (i : SRam.Input) : EEProm.Input :=
  ⟨i.addr, i.data_in, i.oe_n, i.we_n⟩

/-- Identification of the two device states (same cells, same previous
`_we` value). -/
def EEProm.stateOfSRam (s : SRam.State) : EEProm.State :=
  ⟨s.mem, s.prevWE⟩

/-- One settle step of the EEProm on renamed ports is exactly one settle
step of the SRam. -/
theorem EEProm.evalStep_ofSRam (db ab : Nat) (s : SRam.State) (i : SRam.Input) :
    EEProm.evalStep db ab (stateOfSRam s) (inputOfSRam i)
      = (stateOfSRam (SRam.evalStep db ab s i).1, (SRam.evalStep db ab s i).2) :=
  rfl

/-- Any input sequence, run through the EEProm under the port renaming,
produces the identified final state and the identical output list. -/
theorem EEProm.runFrom_ofSRam (db ab : Nat) :
    ∀ (is : List SRam.Input) (s : SRam.State),
      EEProm.runFrom db ab (stateOfSRam s) (is.map inputOfSRam)
        = (stateOfSRam (SRam.runFrom db ab s is).1, (SRam.runFrom db ab s is).2) := by
  intro is
  induction is with
  | nil => intro s; rfl
  | cons i is ih =>
    intro s
    show EEProm.runFrom db ab (stateOfSRam s) (inputOfSRam i :: is.map inputOfSRam) = _
    simp only [EEProm.runFrom, SRam.runFrom, EEProm.evalStep_ofSRam db ab s i, ih]

/-- Claim C7: the RAM model and the EEPROM-like model implement the same
state-transition and output behaviour: under the renaming of ports
(`addr`/`data_in`/`data_out` to `a`/`io_in`/`io_out`) every input sequence
from identified states produces identical stored state and identical
output values; the two power-on states are identified; and the two
constructors accept exactly the same width pairs. -/
theorem sram_eeprom_same_behaviour
    (db ab : Nat) (s : SRam.State) (is : List SRam.Input) (d a : Int) :
    (EEProm.runFrom db ab (EEProm.stateOfSRam s) (is.map EEProm.inputOfSRam)).1
      = EEProm.stateOfSRam (SRam.runFrom db ab s is).1 ∧
    (EEProm.runFrom db ab (EEProm.stateOfSRam s) (is.map EEProm.inputOfSRam)).2
      = (SRam.runFrom db ab s is).2 ∧
    EEProm.initState db ab = EEProm.stateOfSRam (SRam.initState db ab) ∧
    ((EEProm.construct d a).isSome ↔ (SRam.construct d a).isSome) := by
  refine ⟨?_, ?_, rfl, ?_⟩
  · rw [EEProm.runFrom_ofSRam db ab is s]
  · rw [EEProm.runFrom_ofSRam db ab is s]
  · by_cases hc : 0 < d ∧ 0 < a ∧ a ≤ 32 <;>
      simp [SRam.construct, EEProm.construct, hc]

/-- Claim C8: construction of an addressable memory device fails exactly
when `data_width ≤ 0`, `address_width ≤ 0`, or `address_width` exceeds the
ceiling (32 in the richer SRam/EEProm variants, 16 in the simplified sram
variant); the transparent latch fails exactly when `width ≤ 0`; a failing
construction yields no device at all, and a succeeding one yields a device
with `2 ^ address_width` cells. -/
theorem construction_validation (d a w : Int) :
    ((SRam.construct d a).isSome ↔ 0 < d ∧ 0 < a ∧ a ≤ 32) ∧
    ((EEProm.construct d a).isSome ↔ 0 < d ∧ 0 < a ∧ a ≤ 32) ∧
    ((SRamSimple.construct d a).isSome ↔ 0 < d ∧ 0 < a ∧ a ≤ 16) ∧
    ((TransparentLatch.construct w).isSome ↔ 0 < w) ∧
    (∀ dev : SRam.Device, SRam.construct d a = some dev →
      dev.cells.length = 2 ^ a.toNat) ∧
    (∀ dev : EEProm.Device, EEProm.construct d a = some dev →
      dev.cells.length = 2 ^ a.toNat) ∧
    (∀ dev : SRam.Device, SRamSimple.construct d a = some dev →
      dev.cells.length = 2 ^ a.toNat) := by
  refine ⟨?_, ?_, ?_, ?_, ?_, ?_, ?_⟩
  · by_cases hc : 0 < d ∧ 0 < a ∧ a ≤ 32 <;> simp [SRam.construct, hc]
  · by_cases hc : 0 < d ∧ 0 < a ∧ a ≤ 32 <;> simp [EEProm.construct, hc]
  · by_cases hc : 0 < d ∧ 0 < a ∧ a ≤ 16 <;> simp [SRamSimple.construct, hc]
  · by_cases hc : 0 < w <;> simp [TransparentLatch.construct, hc]
  · intro dev h
    by_cases hc : 0 < d ∧ 0 < a ∧ a ≤ 32
    · rw [SRam.construct, if_pos hc] at h
      injection h with h2
      rw [← h2]
      exact List.length_replicate _ _
    · rw [SRam.construct, if_neg hc] at h
      exact absurd h (by simp)
  · intro dev h
    by_cases hc : 0 < d ∧ 0 < a ∧ a ≤ 32
    · rw [EEProm.construct, if_pos hc] at h
      injection h with h2
      rw [← h2]
      exact List.length_replicate _ _
    · rw [EEProm.construct, if_neg hc] at h
      exact absurd h (by simp)
  · intro dev h
    by_cases hc : 0 < d ∧ 0 < a ∧ a ≤ 16
    · rw [SRamSimple.construct, if_pos hc] at h
      injection h with h2
      rw [← h2]
      exact List.length_replicate _ _
    · rw [SRamSimple.construct, if_neg hc] at h
      exact absurd h (by simp)

/-- Witness for C8 at concrete widths: `SRam(16, 4)` succeeds with
`2 ^ 4` cells, and the validation equivalences at `d = 16`, `a = 4`,
`w = 16`. -/
theorem construction_validation_witness :
    ((SRam.construct 16 4).isSome ↔
      0 < (16 : Int) ∧ 0 < (4 : Int) ∧ (4 : Int) ≤ 32) ∧
    ((TransparentLatch.construct 16).isSome ↔ 0 < (16 : Int)) ∧
    (⟨16, 4, List.replicate (2 ^ (4 : Int).toNat) 0⟩ : SRam.Device).cells.length
      = 2 ^ (4 : Int).toNat := by
  refine ⟨(construction_validation 16 4 16).1, (construction_validation 16 4 16).2.2.2.1, ?_⟩
  exact (construction_validation 16 4 16).2.2.2.2.1
    ⟨16, 4, List.replicate (2 ^ (4 : Int).toNat) 0⟩ (by decide)

/-- Claim C9 evidence: the `formal` entry points of the variants without
formal-verification support. The simplified sram, the simplified
transparent latch and the EEProm deliberately fail with `assert False`;
the richer SRam variant's `formal` instead crashes with `NameError`
(it evaluates `EEProm(16, 4)` but never imports `EEProm`), contradicting
its own docstring and the deliberate-failure pattern of its siblings. -/
theorem formal_entry_point_outcomes :
    EEProm.formalOutcome = FormalOutcome.assertionError ∧
    SRamSimple.formalOutcome = FormalOutcome.assertionError ∧
    TransparentLatchSimple.formalOutcome = FormalOutcome.assertionError ∧
    SRam.formalOutcome = FormalOutcome.nameError ∧
    FormalOutcome.nameError ≠ FormalOutcome.assertionError := by
  exact ⟨rfl, rfl, rfl, rfl, by decide⟩

/-- A cell that starts at zero and whose index is never addressed by an
input sequence stays at zero across the whole run (SRam). -/
theorem SRam.cell_zero_of_unaddressed (db ab a : Nat) :
    ∀ (is : List Input) (s : State),
      (∀ i ∈ is, i.addr % 2 ^ ab ≠ a % 2 ^ ab) →
      s.mem.getD (a % 2 ^ ab) 0 = 0 →
      (runFrom db ab s is).1.mem.getD (a % 2 ^ ab) 0 = 0 := by
  intro is
  induction is with
  | nil => intro s _ h0; exact h0
  | cons i is ih =>
    intro s hni h0
    show (runFrom db ab (evalStep db ab s i).1 is).1.mem.getD (a % 2 ^ ab) 0 = 0
    refine ih _ (fun k hk => hni k (List.mem_cons_of_mem i hk)) ?_
    have hne : a % 2 ^ ab ≠ i.addr % 2 ^ ab :=
      fun h => (hni i (List.mem_cons_self i is)) h.symm
    have h1 : (evalStep db ab s i).1.mem =
        if writeEdge s i then s.mem.set (i.addr % 2 ^ ab) (i.data_in % 2 ^ db)
        else s.mem := rfl
    rw [h1]
    cases writeEdge s i
    · exact h0
    · rw [if_pos rfl, listGetD_set_ne s.mem _ _ _ 0 hne]
      exact h0

/-- A cell that starts at zero and whose index is never addressed by an
input sequence stays at zero across the whole run (EEProm). -/
theorem EEProm.cell_zero_of_unaddressed_ee (db ab a : Nat) :
    ∀ (is : List Input) (s : State),
      (∀ i ∈ is, i.a % 2 ^ ab ≠ a % 2 ^ ab) →
      s.mem.getD (a % 2 ^ ab) 0 = 0 →
      (runFrom db ab s is).1.mem.getD (a % 2 ^ ab) 0 = 0 := by
  intro is
  induction is with
  | nil => intro s _ h0; exact h0
  | cons i is ih =>
    intro s hni h0
    show (runFrom db ab (evalStep db ab s i).1 is).1.mem.getD (a % 2 ^ ab) 0 = 0
    refine ih _ (fun k hk => hni k (List.mem_cons_of_mem i hk)) ?_
    have hne : a % 2 ^ ab ≠ i.a % 2 ^ ab :=
      fun h => (hni i (List.mem_cons_self i is)) h.symm
    have h1 : (evalStep db ab s i).1.mem =
        if writeEdge s i then s.mem.set (i.a % 2 ^ ab) (i.io_in % 2 ^ db)
        else s.mem := rfl
    rw [h1]
    cases writeEdge s i
    · exact h0
    · rw [if_pos rfl, listGetD_set_ne s.mem _ _ _ 0 hne]
      exact h0

/-- Claim C10: in the embedding every memory cell (both memory models) and
the latch internal register start at zero, so reading an address that was
never written — `output_enable_n = 0`, `write_enable_n = 1`, after any run
that never addressed it, provided the read step does not itself commit
there (`_we` already high at the read, or a quiescent `data_in`) — returns
the all-zero pattern. -/
theorem never_written_reads_zero
    (db ab a v : Nat) (is : List SRam.Input) (js : List EEProm.Input)
    (hni : ∀ i ∈ is, i.addr % 2 ^ ab ≠ a % 2 ^ ab)
    (hnj : ∀ j ∈ js, j.a % 2 ^ ab ≠ a % 2 ^ ab)
    (hrd : (SRam.runFrom db ab (SRam.initState db ab) is).1.prevWE = true ∨ v % 2 ^ db = 0)
    (hrdE : (EEProm.runFrom db ab (EEProm.initState db ab) js).1.prevWE = true ∨
      v % 2 ^ db = 0) :
    (SRam.initState db ab).mem.getD (a % 2 ^ ab) 0 = 0 ∧
    (EEProm.initState db ab).mem.getD (a % 2 ^ ab) 0 = 0 ∧
    TransparentLatch.initState.reg = 0 ∧
    (SRam.evalStep db ab (SRam.runFrom db ab (SRam.initState db ab) is).1
      ⟨a, v, false, true⟩).2 = 0 ∧
    (EEProm.evalStep db ab (EEProm.runFrom db ab (EEProm.initState db ab) js).1
      ⟨a, v, false, true⟩).2 = 0 := by
  have hz : (SRam.initState db ab).mem.getD (a % 2 ^ ab) 0 = 0 :=
    listGetD_replicate_zero _ _
  have hzE : (EEProm.initState db ab).mem.getD (a % 2 ^ ab) 0 = 0 :=
    listGetD_replicate_zero _ _
  have hcell := SRam.cell_zero_of_unaddressed db ab a is (SRam.initState db ab) hni hz
  have hcellE := EEProm.cell_zero_of_unaddressed_ee db ab a js (EEProm.initState db ab) hnj hzE
  refine ⟨hz, hzE, rfl, ?_, ?_⟩
  · rw [SRam.evalStep_snd]
    simp only [Bool.not_false, Bool.and_self, ite_true, if_true]
    rcases hrd with h | h
    · simp only [SRam.writeEdge, h, Bool.not_true, Bool.false_and, ite_false, if_false]
      exact hcell
    · cases SRam.writeEdge (SRam.runFrom db ab (SRam.initState db ab) is).1
        ⟨a, v, false, true⟩
      · exact hcell
      · rw [h]
        exact listGetD_set_self_zero _ _ hcell
  · rw [EEProm.evalStep_snd_ee]
    simp only [Bool.not_false, Bool.and_self, ite_true, if_true]
    rcases hrdE with h | h
    · simp only [EEProm.writeEdge, h, Bool.not_true, Bool.false_and, ite_false, if_false]
      exact hcellE
    · cases EEProm.writeEdge (EEProm.runFrom db ab (EEProm.initState db ab) js).1
        ⟨a, v, false, true⟩
      · exact hcellE
      · rw [h]
        exact listGetD_set_self_zero _ _ hcellE

/-- Witness for C10 at concrete inputs: from power-on of a 16-bit-data,
4-bit-address device, reading address 5 (never written, quiescent
`data_in`) yields 0, and the latch register starts at 0. -/
theorem never_written_reads_zero_witness :
    0 % 2 ^ 16 = 0 ∧
    (SRam.initState 16 4).mem.getD (5 % 2 ^ 4) 0 = 0 ∧
    (EEProm.initState 16 4).mem.getD (5 % 2 ^ 4) 0 = 0 ∧
    TransparentLatch.initState.reg = 0 ∧
    (SRam.evalStep 16 4 (SRam.runFrom 16 4 (SRam.initState 16 4) []).1
      ⟨5, 0, false, true⟩).2 = 0 ∧
    (EEProm.evalStep 16 4 (EEProm.runFrom 16 4 (EEProm.initState 16 4) []).1
      ⟨5, 0, false, true⟩).2 = 0 := by
  have h := never_written_reads_zero 16 4 5 0 [] []
    (fun i hi => absurd hi (List.not_mem_nil i))
    (fun j hj => absurd hj (List.not_mem_nil j))
    (Or.inr (by decide)) (Or.inr (by decide))
  exact ⟨by decide, h.1, h.2.1, h.2.2.1, h.2.2.2.1, h.2.2.2.2⟩
